import Mathlib

/-!
Verification of `ftrack_api_explorer.py` (huntfx/ftrack-api-explorer).

This file gives a shallow embedding of the parts of the program the claims
are about: `entityRepr`, `isKeyLoaded`, the `EntityCache` class (a key-value
cache over ftrack entities), and the `FTrackExplorer` methods `loadEntity`,
`_loadEntity`, `populateChildren`, `addItem`, `addDummyItem`, `executeAll`,
`executeFirst` and `clear`.

Modelling conventions:
* ftrack entity values are modelled by the inductive `Val`: scalars are
  strings (Python `str(x)` / `repr(x)` condensed to their string form),
  entities carry their class (`EntityType`) and their attribute storage
  (`_ftrack_attribute_storage`: per-key entries whose remote value is either
  a value or `NOT_SET`, the latter modelled as `none`).
* the ftrack server/session is an oracle (`Session`): `session.types`,
  `session.get`, `session.query`, and per-attribute fetches.  Opening
  `ftrack_api.Session()` is observable as a counter in the results.
* GUI side effects that carry no data (print statements, progress-bar
  signals, column resizing) are not modelled; tree items, item roles and row
  insertion are modelled by the `Item` inductive.
* exceptions are modelled by `PyErr`; Python aborts the rest of the call, so
  functions return the effects performed so far together with the error.
-/

/-- Python exceptions that the embedded code paths can raise. -/
inductive PyErr where
  | keyError
  | unboundLocal
  | attributeError
  | serverError
  | typeError
deriving DecidableEq, Repr

/-- Kinds of ftrack attributes (`ftrack_api.attribute.*Attribute`). -/
inductive AttrKind where
  | scalar
  | reference
  | collection
  | keyValueMapped
deriving DecidableEq, Repr

/-- An ftrack entity class: `entity_type`, `primary_key_attributes` and the
class-level `attributes` registry mapping attribute name to its kind. -/
structure EntityType where
  entity_type : String
  primary_key_attributes : List String
  attributes : List (String × AttrKind)
deriving DecidableEq, Repr

/-- Entity values.  `ent t storage` is an ftrack entity of class `t` whose
`_ftrack_attribute_storage` is `storage`: an entry `(k, some v)` means the
remote value of `k` is loaded and equal to `v`, `(k, none)` means the entry
exists but its remote value is `NOT_SET`, and an absent key has no storage
entry.  `coll`/`kvcoll` are ftrack `Collection` /
`KeyValueMappedCollectionProxy` values; `collPh`/`kvPh` are the
`Placeholders.Collection` / `Placeholders.KeyValueMappedCollectionProxy`
instances `_loadEntity` substitutes for unloaded collections; `pylist` and
`pydict` are plain Python lists and dicts; `vnone` is Python `None`. -/
inductive Val : Type where
  | scalar (s : String)
  | ent (t : EntityType) (storage : List (String × Option Val))
  | coll (children : List Val)
  | kvcoll (entries : List (String × Val))
  | pylist (xs : List Val)
  | pydict (entries : List (String × Val))
  | collPh
  | kvPh
  | vnone

/-- Association-list lookup (first match), modelling Python dict lookup. -/
def lookupA {α : Type} : List (String × α) → String → Option α
  | [], _ => none
  | (k', v) :: rest, k => if k' = k then some v else lookupA rest k

/-- Association-list insert/update, modelling Python dict assignment: an
existing key keeps its position, a new key is appended (insertion order). -/
def insertA {α : Type} : List (String × α) → String → α → List (String × α)
  | [], k, v => [(k, v)]
  | (k', v') :: rest, k, v =>
    if k' = k then (k, v) :: rest else (k', v') :: insertA rest k v

/-- Boolean string comparison used to model Python `sorted` on strings. -/
def strLT (a b : String) : Bool := decide (a < b)

/-- Stable insertion into a sorted list (an equal element goes after the
existing ones, as Python's stable `sorted` does). -/
def insertSorted (a : String) : List String → List String
  | [] => [a]
  | b :: l => if strLT a b then a :: b :: l else b :: insertSorted a l

/-- Python `sorted` on a list of strings (insertion sort; stable). -/
def pySorted (l : List String) : List String :=
  l.foldl (fun acc a => insertSorted a acc) []

/-- Stable insertion by key for `sorted(value.items())`. -/
def insertSortedKV (a : String × Val) :
    List (String × Val) → List (String × Val)
  | [] => [a]
  | b :: l => if strLT a.1 b.1 then a :: b :: l else b :: insertSortedKV a l

/-- Python `sorted` on dict items, comparing keys (dict keys are unique, so
the tuple comparison never reaches the values). -/
def pySortedKV (l : List (String × Val)) : List (String × Val) :=
  l.foldl (fun acc a => insertSortedKV a acc) []

theorem mem_insertSorted {a b : String} {l : List String} :
    b ∈ insertSorted a l ↔ b = a ∨ b ∈ l := by
  induction l with
  | nil => simp [insertSorted]
  | cons c l ih =>
    simp only [insertSorted]
    split
    · simp [List.mem_cons]
    · simp only [List.mem_cons, ih]
      tauto

theorem mem_pySorted {b : String} {l : List String} :
    b ∈ pySorted l ↔ b ∈ l := by
  have key : ∀ (l acc : List String),
      b ∈ l.foldl (fun acc a => insertSorted a acc) acc ↔ b ∈ l ∨ b ∈ acc := by
    intro l
    induction l with
    | nil => simp
    | cons c l ih =>
      intro acc
      simp only [List.foldl_cons, ih, mem_insertSorted, List.mem_cons]
      tauto
  simpa using key l []

/-- The ASCII single-quote character used by Python `repr` on strings. -/
def pyQuote : String := (Char.ofNat 39).toString

/-- Python `repr(v)` for the values that occur as primary-key values in
`entityRepr` (strings get quoted; the other cases are tagged so distinct
kinds stay distinct, they do not occur as primary keys in practice). -/
def pyRepr : Val → String
  | .scalar s => pyQuote ++ s ++ pyQuote
  | .vnone => "None"
  | .ent t _ => "<" ++ t.entity_type ++ ">"
  | .coll _ => "<Collection>"
  | .kvcoll _ => "<KeyValueMappedCollectionProxy>"
  | .pylist _ => "<list>"
  | .pydict _ => "<dict>"
  | .collPh => "<Collection>"
  | .kvPh => "<KeyValueMappedCollectionProxy>"

/-- Python `str(v)` for scalar display (`appendRow(parent, key, str(value))`
and the `';'.join(entity[k] ...)` of `addDummyItem`). -/
def pyStr : Val → String
  | .scalar s => s
  | .vnone => "None"
  | .ent t _ => "<" ++ t.entity_type ++ ">"
  | .coll _ => "<Collection>"
  | .kvcoll _ => "<KeyValueMappedCollectionProxy>"
  | .pylist _ => "<list>"
  | .pydict _ => "<dict>"
  | .collPh => "<Collection>"
  | .kvPh => "<KeyValueMappedCollectionProxy>"

/-- Python `type(value).__name__` as used by `addItem` for the Type column
and by `addDummyItem` for the `EntityTypeRole` (ftrack entity classes are
named after their `entity_type`). -/
def className : Val → String
  | .scalar _ => "str"
  | .vnone => "NoneType"
  | .ent t _ => t.entity_type
  | .coll _ => "Collection"
  | .kvcoll _ => "KeyValueMappedCollectionProxy"
  | .pylist _ => "list"
  | .pydict _ => "dict"
  | .collPh => "Collection"
  | .kvPh => "KeyValueMappedCollectionProxy"

/-- The locally stored (loaded) value of `entity[k]`, defaulting to an empty
string when the key is absent.  The default only matters for primary-key
reads (`entityRepr`, `addDummyItem`), where ftrack guarantees the key is
locally set, and is never reached on paths guarded by `isKeyLoaded`. -/
def storedVal (storage : List (String × Option Val)) (k : String) : Val :=
  match lookupA storage k with
  | some (some v) => v
  | _ => .scalar ""

/-- Shared formatting core of `entityRepr`:
`EntityTypeName(pk1=repr(v1), pk2=repr(v2))`. -/
def entityReprCore (t : EntityType) (vals : List Val) : String :=
  t.entity_type ++ "(" ++
    String.intercalate ", "
      ((t.primary_key_attributes.zip vals).map fun kv =>
        kv.1 ++ "=" ++ pyRepr kv.2) ++ ")"

/-- `entityRepr(entityType, entityID)` — the arm of the source `entityRepr`
taking an entity class and an explicit ID: the ID values coming from
`split(';')` are Python strings. -/
def entityReprOfType (t : EntityType) (entityID : List String) : String :=
  entityReprCore t (entityID.map .scalar)

/-- `entityRepr(entity)` — the arm of the source `entityRepr` taking an
entity: the type is `type(entity)` and the ID values are
`[entity[k] for k in primary_key_attributes]`.  On a non-entity argument
Python raises `AttributeError` (no `primary_key_attributes` on the class);
every caller in this file reaches this function only behind an entity
check (`EntityCache.load`, `_loadEntity`) or with an entity in hand
(`addItem`/`addDummyItem`, `getItem`), so the `"<ClassName>"` fallback is
never load-bearing — it only keeps the function total. -/
def entityReprOfEntity : Val → String
  | .ent t storage => entityReprCore t (t.primary_key_attributes.map (storedVal storage))
  | v => "<" ++ className v ++ ">"

/-- `isKeyLoaded(entity, key)`: the attribute storage has an entry for `key`
whose remote value is not `NOT_SET`.  (On a non-entity the storage is absent,
the `attrStorage is None` branch of the source.) -/
def isKeyLoaded : Val → String → Bool
  | .ent _ storage, key =>
    match lookupA storage key with
    | some (some _) => true
    | some none => false
    | none => false
  | _, _ => false

/-- The ftrack server/SDK oracle.  A single structure stands for any session
opened with `ftrack_api.Session()`: `types` is `session.types`, `get` is
`session.get(entity_type, entity_id)` (`none` for a missing entity), `query`
is `session.query(text)` (`.error` for the `KeyError` an unknown entity type
raises), and `fetch repr key` is the server round-trip performed when an
unloaded attribute is accessed (`none` for a `ServerError`). -/
structure Session where
  types : List (String × EntityType)
  get : String → List String → Option Val
  query : String → Except Unit (List Val)
  fetch : String → String → Option Val

/-- `entity[key]`: a loaded key returns its stored value without touching
the server; an unloaded key performs a server fetch, which is recorded in
the returned log as `(repr(entity), key)`.  `none` with a logged fetch is a
`ServerError`. -/
def getItem (sess : Session) (e : Val) (k : String) :
    Option Val × List (String × String) :=
  match e with
  | .ent _ storage =>
    match lookupA storage k with
    | some (some v) => (some v, [])
    | _ => (sess.fetch (entityReprOfEntity e) k,
            [(entityReprOfEntity e, k)])
  | _ => (none, [])

/-- `entity.keys()`: the attribute names of the entity's class. -/
def entKeys : Val → List String
  | .ent t _ => t.attributes.map (·.1)
  | _ => []

/-- The class-level state of `EntityCache`: `Cache` is the
`defaultdict(dict)` mapping entity repr to its per-key value cache,
`Entities` maps entity repr to the registered entity object, `Types` is the
cached `session.types`. -/
structure CacheState where
  Cache : List (String × List (String × Val)) := []
  Entities : List (String × Val) := []
  Types : List (String × EntityType) := []

namespace EntityCache

/-- `EntityCache.__init__`: compute `self.id = entityRepr(entity)` and
register the entity in `Entities` unless the id is already present ("Don't
overwrite as it'll break if auto-populate is disabled"). -/
def register (st : CacheState) (e : Val) : CacheState :=
  let id := entityReprOfEntity e
  if (lookupA st.Entities id).isNone then
    { st with Entities := insertA st.Entities id e }
  else st

/-- `Cache[id][k] = v` on the raw cache map (`defaultdict` semantics: a
missing id starts from an empty dict). -/
def cacheIns (c : List (String × List (String × Val))) (id k : String)
    (v : Val) : List (String × List (String × Val)) :=
  insertA c id (insertA ((lookupA c id).getD []) k v)

/-- `EntityCache.__setitem__` (after `__init__` has fixed `self.id`). -/
def setItem (st : CacheState) (id k : String) (v : Val) : CacheState :=
  { st with Cache := cacheIns st.Cache id k v }

/-- `EntityCache.__getitem__` on a given id (a missing key would raise
`KeyError` in Python; callers guard with `__contains__`). -/
def getItemC (st : CacheState) (id k : String) : Option Val :=
  lookupA ((lookupA st.Cache id).getD []) k

/-- `EntityCache.__contains__` on a given id. -/
def containsC (st : CacheState) (id k : String) : Bool :=
  (getItemC st id k).isSome

/-- `EntityCache(entity)[key] = value`: construct (registering the entity)
then assign through `__setitem__`. -/
def setEntity (st : CacheState) (e : Val) (k : String) (v : Val) : CacheState :=
  setItem (register st e) (entityReprOfEntity e) k v

/-- Reading `EntityCache(entity)[key]` (the construction also registers the
entity in `Entities`, which does not affect the returned value). -/
def getEntity (st : CacheState) (e : Val) (k : String) : Option Val :=
  getItemC st (entityReprOfEntity e) k

/-- `key in EntityCache(entity)`. -/
def containsEntity (st : CacheState) (e : Val) (k : String) : Bool :=
  containsC st (entityReprOfEntity e) k

/-- `EntityCache.reset`: `cls.Cache = defaultdict(dict)`. -/
def reset (st : CacheState) : CacheState :=
  { st with Cache := [] }

/-- `EntityCache.entity(name)`: `cls.Entities.get(name)`. -/
def entity (st : CacheState) (name : String) : Option Val :=
  lookupA st.Entities name

/-- `EntityCache.types(session=None)`.  `given` tells whether a session was
passed; `sess` is the oracle also used for a newly opened
`ftrack_api.Session()`.  Returns the result (`dict(cls.Types)`, a fresh copy
in Python), the new state, and the number of sessions opened by the call. -/
def types (sess : Session) (given : Bool) (st : CacheState) :
    List (String × EntityType) × CacheState × Nat :=
  if st.Types = [] then
    if given then
      let st' := { st with Types := sess.types }
      (st'.Types, st', 0)
    else
      let st' := { st with Types := sess.types }
      (st'.Types, st', 1)
  else (st.Types, st, 0)

end EntityCache

/-- `attributes.get(key)` where `attributes = type(entity).attributes`. -/
def attrKindOf : Val → String → Option AttrKind
  | .ent t _, k => lookupA t.attributes k
  | _, _ => none

/-- Iterating `entity[key]` for a collection-valued attribute
(`for child in entity[key]`): a `Collection` (or a plain list) yields its
children; other values are not iterated on the guarded paths. -/
def childrenOf : Val → List Val
  | .coll vs => vs
  | .pylist xs => xs
  | _ => []

/-- The stored value `entity[k]` of a loaded key (used by the spec mirror
and by the termination argument; agrees with `getItem` when
`isKeyLoaded`). -/
def loadedValOf : Val → String → Val
  | .ent _ storage, k => storedVal storage k
  | _, _ => .scalar ""

theorem sizeOf_lookupA_storage {storage : List (String × Option Val)}
    {k : String} {v : Val} (h : lookupA storage k = some (some v)) :
    sizeOf v < sizeOf storage := by
  induction storage with
  | nil => simp [lookupA] at h
  | cons p rest ih =>
    obtain ⟨k', ov⟩ := p
    simp only [lookupA] at h
    split at h
    · cases h
      simp only [List.cons.sizeOf_spec, Prod.mk.sizeOf_spec,
        Option.some.sizeOf_spec]
      omega
    · have := ih h
      simp only [List.cons.sizeOf_spec]
      omega

theorem isKeyLoaded_ent {e : Val} {k : String} (h : isKeyLoaded e k = true) :
    ∃ t storage, e = .ent t storage ∧
      lookupA storage k = some (some (loadedValOf e k)) := by
  match e with
  | .scalar _ | .coll _ | .kvcoll _ | .pylist _ | .pydict _
  | .collPh | .kvPh | .vnone => simp [isKeyLoaded] at h
  | .ent t storage =>
    refine ⟨t, storage, rfl, ?_⟩
    simp only [isKeyLoaded] at h
    simp only [loadedValOf, storedVal]
    split at h
    · next heq => rw [heq]
    · exact absurd h (by simp)
    · exact absurd h (by simp)

theorem getItem_loaded {e : Val} {k : String} (sess : Session)
    (h : isKeyLoaded e k = true) :
    getItem sess e k = (some (loadedValOf e k), []) := by
  obtain ⟨t, storage, rfl, hl⟩ := isKeyLoaded_ent h
  simp [getItem, hl]

theorem sizeOf_loadedValOf_lt {e : Val} {k : String}
    (h : isKeyLoaded e k = true) : sizeOf (loadedValOf e k) < sizeOf e := by
  obtain ⟨t, storage, he, hl⟩ := isKeyLoaded_ent h
  subst he
  have h1 := sizeOf_lookupA_storage hl
  simp only [Val.ent.sizeOf_spec]
  omega

theorem sizeOf_childrenOf_le (v : Val) : sizeOf (childrenOf v) ≤ sizeOf v := by
  match v with
  | .coll vs => simp [childrenOf]
  | .pylist xs => simp [childrenOf]
  | .scalar _ | .ent _ _ | .kvcoll _ | .pydict _ | .collPh | .kvPh
  | .vnone =>
    simp only [childrenOf]
    cases v <;> simp <;> omega

namespace EntityCache

mutual

/-- `EntityCache.load(entity)`: construct the cache (registering the entity
in `Entities`), then walk `entity.keys()`.  `fetched` accumulates the server
fetches performed by any `entity[key]` access.  On a non-entity argument
the constructor `cls(entity)` raises `AttributeError` (inside
`entityRepr`, reading `primary_key_attributes` off `type(entity)`), so the
result carries the error and nothing is registered or written; an error
raised by a recursive call aborts the remaining keys/children, keeping the
writes already performed (the cache is class-level state). -/
def load (sess : Session) (st : CacheState)
    (fetched : List (String × String)) (e : Val) :
    CacheState × List (String × String) × Option PyErr :=
  match e with
  | .ent t storage =>
    loadKeys sess (register st (.ent t storage)) fetched (.ent t storage)
      (entKeys (.ent t storage))
  | _ => (st, fetched, some .attributeError)
termination_by (sizeOf e, 1, 0)
decreasing_by
  exact Prod.Lex.right _ (Prod.Lex.left _ _ (by omega))

/-- The `for key in entity.keys()` loop of `EntityCache.load`: a key whose
remote value is not loaded is skipped; a loaded key is written to the cache
(`cache[key] = entity[key]`) and, depending on its attribute kind, `load`
recurses into the reference value or into each collection child; an
exception from the recursion propagates, skipping the remaining keys. -/
def loadKeys (sess : Session) (st : CacheState)
    (fetched : List (String × String)) (e : Val) :
    List String → CacheState × List (String × String) × Option PyErr
  | [] => (st, fetched, none)
  | k :: rest =>
    if h : isKeyLoaded e k then
      let r1 := getItem sess e k
      let st1 := setItem st (entityReprOfEntity e) k (r1.1.getD (.scalar ""))
      let f1 := fetched ++ r1.2
      let next :=
        match attrKindOf e k with
        | some .reference =>
          let r2 := getItem sess e k
          load sess st1 (f1 ++ r2.2) (r2.1.getD (.scalar ""))
        | some .collection =>
          let r2 := getItem sess e k
          loadChildren sess st1 (f1 ++ r2.2)
            (childrenOf (r2.1.getD (.scalar "")))
        | _ => (st1, f1, none)
      match next.2.2 with
      | some er => (next.1, next.2.1, some er)
      | none => loadKeys sess next.1 next.2.1 e rest
    else
      loadKeys sess st fetched e rest
termination_by ks => (sizeOf e, 0, ks.length)
decreasing_by
  · refine Prod.Lex.left _ _ ?_
    have h1 := sizeOf_loadedValOf_lt h
    have h2 := getItem_loaded sess h
    rw [h2]
    simpa using h1
  · refine Prod.Lex.left _ _ ?_
    have h1 := sizeOf_loadedValOf_lt h
    rw [getItem_loaded sess h]
    simp only [Option.getD_some]
    exact lt_of_le_of_lt (sizeOf_childrenOf_le _) h1
  · exact Prod.Lex.right _ (Prod.Lex.right _
      (by simp only [List.length_cons]; omega))
  · exact Prod.Lex.right _ (Prod.Lex.right _
      (by simp only [List.length_cons]; omega))

/-- `for child in entity[key]: cls.load(child)`; an exception from a child
aborts the remaining children. -/
def loadChildren (sess : Session) (st : CacheState)
    (fetched : List (String × String)) :
    List Val → CacheState × List (String × String) × Option PyErr
  | [] => (st, fetched, none)
  | v :: rest =>
    let r := load sess st fetched v
    match r.2.2 with
    | some er => (r.1, r.2.1, some er)
    | none => loadChildren sess r.1 r.2.1 rest
termination_by vs => (sizeOf vs, 0, 0)
decreasing_by
  · refine Prod.Lex.left _ _ ?_
    simp only [List.cons.sizeOf_spec]
    omega
  · refine Prod.Lex.left _ _ ?_
    simp only [List.cons.sizeOf_spec]
    omega

end

end EntityCache

mutual

/-- Spec mirror of the claim about `EntityCache.load`, written from its
words: the cache receives "exactly those keys of the entity whose remote
value is already loaded (attribute storage entry present with remote value
distinct from NOT_SET), recursing into the value of every loaded reference
attribute and into every child of every loaded collection attribute".  Each
write is a triple (entity repr, key, stored remote value). -/
def specWrites (e : Val) : List (String × String × Val) :=
  specWritesKeys e (entKeys e)
termination_by (sizeOf e, 1, 0)
decreasing_by
  exact Prod.Lex.right _ (Prod.Lex.left _ _ (by omega))

/-- Spec mirror, per key: an unloaded key contributes nothing; a loaded key
contributes its own write followed by the writes of the recursion. -/
def specWritesKeys (e : Val) : List String → List (String × String × Val)
  | [] => []
  | k :: rest =>
    if h : isKeyLoaded e k then
      (entityReprOfEntity e, k, loadedValOf e k) ::
        ((match attrKindOf e k with
          | some .reference => specWrites (loadedValOf e k)
          | some .collection => specWritesChildren (childrenOf (loadedValOf e k))
          | _ => []) ++ specWritesKeys e rest)
    else specWritesKeys e rest
termination_by ks => (sizeOf e, 0, ks.length)
decreasing_by
  · refine Prod.Lex.left _ _ ?_
    exact sizeOf_loadedValOf_lt h
  · refine Prod.Lex.left _ _ ?_
    exact lt_of_le_of_lt (sizeOf_childrenOf_le _) (sizeOf_loadedValOf_lt h)
  · exact Prod.Lex.right _ (Prod.Lex.right _
      (by simp only [List.length_cons]; omega))
  · exact Prod.Lex.right _ (Prod.Lex.right _
      (by simp only [List.length_cons]; omega))

/-- Spec mirror: the writes of every child of a loaded collection. -/
def specWritesChildren : List Val → List (String × String × Val)
  | [] => []
  | v :: rest => specWrites v ++ specWritesChildren rest
termination_by vs => (sizeOf vs, 0, 0)
decreasing_by
  · refine Prod.Lex.left _ _ ?_
    simp only [List.cons.sizeOf_spec]
    omega
  · refine Prod.Lex.left _ _ ?_
    simp only [List.cons.sizeOf_spec]
    omega

end

/-- Apply a list of cache writes to the raw cache map, in order. -/
def applyWrites (c : List (String × List (String × Val)))
    (ws : List (String × String × Val)) :
    List (String × List (String × Val)) :=
  ws.foldl (fun c w => EntityCache.cacheIns c w.1 w.2.1 w.2.2) c

theorem applyWrites_append (c : List (String × List (String × Val)))
    (ws₁ ws₂ : List (String × String × Val)) :
    applyWrites c (ws₁ ++ ws₂) = applyWrites (applyWrites c ws₁) ws₂ :=
  List.foldl_append _ _ _ _

theorem register_Cache (st : CacheState) (e : Val) :
    (EntityCache.register st e).Cache = st.Cache := by
  simp only [EntityCache.register]
  split <;> rfl

theorem register_Types (st : CacheState) (e : Val) :
    (EntityCache.register st e).Types = st.Types := by
  simp only [EntityCache.register]
  split <;> rfl

mutual

/-- `EntityCache.load` leaves `Types` alone, performs no server fetch, and,
when it completes without raising, has written to the value cache exactly
the entries the spec mirror `specWrites` describes. -/
theorem load_spec_eq (sess : Session) (e : Val) :
    ∀ (st : CacheState) (f : List (String × String)),
      (EntityCache.load sess st f e).1.Types = st.Types ∧
        (EntityCache.load sess st f e).2.1 = f ∧
        ((EntityCache.load sess st f e).2.2 = none →
          (EntityCache.load sess st f e).1.Cache =
            applyWrites st.Cache (specWrites e)) := by
  intro st f
  cases e
  case ent t storage =>
    have h1 := loadKeys_spec_eq sess (Val.ent t storage)
      (entKeys (Val.ent t storage))
      (EntityCache.register st (Val.ent t storage)) f
    simp only [EntityCache.load, specWrites]
    exact ⟨by rw [h1.1, register_Types], h1.2.1,
      fun hn => by rw [h1.2.2 hn, register_Cache]⟩
  all_goals refine ⟨?_, ?_, ?_⟩ <;> simp [EntityCache.load]
termination_by (sizeOf e, 1, 0)
decreasing_by
  exact Prod.Lex.right _ (Prod.Lex.left _ _ (by omega))

/-- Per-key version of `load_spec_eq`. -/
theorem loadKeys_spec_eq (sess : Session) (e : Val) (ks : List String) :
    ∀ (st : CacheState) (f : List (String × String)),
      (EntityCache.loadKeys sess st f e ks).1.Types = st.Types ∧
        (EntityCache.loadKeys sess st f e ks).2.1 = f ∧
        ((EntityCache.loadKeys sess st f e ks).2.2 = none →
          (EntityCache.loadKeys sess st f e ks).1.Cache =
            applyWrites st.Cache (specWritesKeys e ks)) := by
  match ks with
  | [] =>
    intro st f
    refine ⟨?_, ?_, ?_⟩ <;> simp [EntityCache.loadKeys, specWritesKeys,
      applyWrites]
  | k :: rest =>
    intro st f
    by_cases h : isKeyLoaded e k = true
    · rw [EntityCache.loadKeys, specWritesKeys, dif_pos h, dif_pos h]
      rw [getItem_loaded sess h]
      simp only [Option.getD_some, List.append_nil]
      rcases hA : attrKindOf e k with _ | kind
      · have ih := loadKeys_spec_eq sess e rest
          (EntityCache.setItem st (entityReprOfEntity e) k (loadedValOf e k)) f
        simp only [hA] at ih ⊢
        refine ⟨by rw [ih.1]; rfl, ih.2.1, fun hn => ?_⟩
        rw [ih.2.2 hn]
        simp [applyWrites, EntityCache.setItem]
      · cases kind
        · have ih := loadKeys_spec_eq sess e rest
            (EntityCache.setItem st (entityReprOfEntity e) k (loadedValOf e k)) f
          simp only [hA] at ih ⊢
          refine ⟨by rw [ih.1]; rfl, ih.2.1, fun hn => ?_⟩
          rw [ih.2.2 hn]
          simp [applyWrites, EntityCache.setItem]
        · have ihL := load_spec_eq sess (loadedValOf e k)
            (EntityCache.setItem st (entityReprOfEntity e) k (loadedValOf e k)) f
          rcases hsub : (EntityCache.load sess
              (EntityCache.setItem st (entityReprOfEntity e) k (loadedValOf e k))
              f (loadedValOf e k)).2.2 with _ | er
          · have ih := loadKeys_spec_eq sess e rest
              (EntityCache.load sess
                (EntityCache.setItem st (entityReprOfEntity e) k
                  (loadedValOf e k)) f (loadedValOf e k)).1
              (EntityCache.load sess
                (EntityCache.setItem st (entityReprOfEntity e) k
                  (loadedValOf e k)) f (loadedValOf e k)).2.1
            simp only [hA, hsub] at ih ⊢
            refine ⟨?_, ?_, fun hn => ?_⟩
            · rw [ih.1, ihL.1]
              rfl
            · rw [ih.2.1, ihL.2.1]
            · rw [ih.2.2 hn, ihL.2.2 hsub]
              simp [applyWrites, EntityCache.setItem, List.foldl_append]
          · simp only [hA, hsub]
            refine ⟨?_, ?_, fun hn => by simp at hn⟩
            · rw [ihL.1]
              rfl
            · exact ihL.2.1
        · have ihC := loadChildren_spec_eq sess (childrenOf (loadedValOf e k))
            (EntityCache.setItem st (entityReprOfEntity e) k (loadedValOf e k)) f
          rcases hsub : (EntityCache.loadChildren sess
              (EntityCache.setItem st (entityReprOfEntity e) k (loadedValOf e k))
              f (childrenOf (loadedValOf e k))).2.2 with _ | er
          · have ih := loadKeys_spec_eq sess e rest
              (EntityCache.loadChildren sess
                (EntityCache.setItem st (entityReprOfEntity e) k
                  (loadedValOf e k)) f (childrenOf (loadedValOf e k))).1
              (EntityCache.loadChildren sess
                (EntityCache.setItem st (entityReprOfEntity e) k
                  (loadedValOf e k)) f (childrenOf (loadedValOf e k))).2.1
            simp only [hA, hsub] at ih ⊢
            refine ⟨?_, ?_, fun hn => ?_⟩
            · rw [ih.1, ihC.1]
              rfl
            · rw [ih.2.1, ihC.2.1]
            · rw [ih.2.2 hn, ihC.2.2 hsub]
              simp [applyWrites, EntityCache.setItem, List.foldl_append]
          · simp only [hA, hsub]
            refine ⟨?_, ?_, fun hn => by simp at hn⟩
            · rw [ihC.1]
              rfl
            · exact ihC.2.1
        · have ih := loadKeys_spec_eq sess e rest
            (EntityCache.setItem st (entityReprOfEntity e) k (loadedValOf e k)) f
          simp only [hA] at ih ⊢
          refine ⟨by rw [ih.1]; rfl, ih.2.1, fun hn => ?_⟩
          rw [ih.2.2 hn]
          simp [applyWrites, EntityCache.setItem]
    · rw [EntityCache.loadKeys, specWritesKeys, dif_neg h, dif_neg h]
      exact loadKeys_spec_eq sess e rest st f
termination_by (sizeOf e, 0, ks.length)
decreasing_by
  all_goals
    first
      | exact Prod.Lex.right _ (Prod.Lex.right _
          (by simp only [List.length_cons]; omega))
      | exact Prod.Lex.left _ _ (sizeOf_loadedValOf_lt h)
      | exact Prod.Lex.left _ _
          (lt_of_le_of_lt (sizeOf_childrenOf_le _) (sizeOf_loadedValOf_lt h))

/-- Per-child version of `load_spec_eq`. -/
theorem loadChildren_spec_eq (sess : Session) (vs : List Val) :
    ∀ (st : CacheState) (f : List (String × String)),
      (EntityCache.loadChildren sess st f vs).1.Types = st.Types ∧
        (EntityCache.loadChildren sess st f vs).2.1 = f ∧
        ((EntityCache.loadChildren sess st f vs).2.2 = none →
          (EntityCache.loadChildren sess st f vs).1.Cache =
            applyWrites st.Cache (specWritesChildren vs)) := by
  match vs with
  | [] =>
    intro st f
    refine ⟨?_, ?_, ?_⟩ <;> simp [EntityCache.loadChildren,
      specWritesChildren, applyWrites]
  | v :: rest =>
    intro st f
    rw [EntityCache.loadChildren, specWritesChildren]
    have ihL := load_spec_eq sess v st f
    rcases hsub : (EntityCache.load sess st f v).2.2 with _ | er
    · have ih := loadChildren_spec_eq sess rest
        (EntityCache.load sess st f v).1 (EntityCache.load sess st f v).2.1
      simp only [hsub] at ih ⊢
      refine ⟨?_, ?_, fun hn => ?_⟩
      · rw [ih.1, ihL.1]
      · rw [ih.2.1, ihL.2.1]
      · rw [ih.2.2 hn, ihL.2.2 hsub, applyWrites_append]
    · simp only [hsub]
      exact ⟨ihL.1, ihL.2.1, fun hn => by simp at hn⟩
termination_by (sizeOf vs, 0, 0)
decreasing_by
  all_goals
    exact Prod.Lex.left _ _
      (by simp only [List.cons.sizeOf_spec]; omega)

end

theorem mem_insertSortedKV {a b : String × Val} {l : List (String × Val)} :
    b ∈ insertSortedKV a l ↔ b = a ∨ b ∈ l := by
  induction l with
  | nil => simp [insertSortedKV]
  | cons c l ih =>
    simp only [insertSortedKV]
    split
    · simp [List.mem_cons]
    · simp only [List.mem_cons, ih]
      tauto

theorem mem_pySortedKV {b : String × Val} {l : List (String × Val)} :
    b ∈ pySortedKV l ↔ b ∈ l := by
  have key : ∀ (l acc : List (String × Val)),
      b ∈ l.foldl (fun acc a => insertSortedKV a acc) acc ↔
        b ∈ l ∨ b ∈ acc := by
    intro l
    induction l with
    | nil => simp
    | cons c l ih =>
      intro acc
      simp only [List.foldl_cons, ih, mem_insertSortedKV, List.mem_cons]
      tauto
  simpa using key l []

/-- The item roles `FTrackExplorer` stores on tree items: `VisitRole`,
`DummyRole`, `AutoPopulateRole`, `EntityKeyRole`, `EntityTypeRole`,
`EntityPrimaryKeyRole`.  `none` models the `None` Qt returns for unset
role data. -/
structure Roles where
  visit : Option Bool := none
  dummy : Option Bool := none
  autoPop : Option Bool := none
  entityKey : Option String := none
  entityTypeR : Option String := none
  entityPK : Option String := none
deriving DecidableEq, Repr

/-- A tree item: the three columns of its row (`Key`, `Value`, `Type`), its
role data, and its children. -/
inductive Item : Type where
  | mk (text value typeName : String) (roles : Roles) (children : List Item)

def Item.text : Item → String
  | .mk t _ _ _ _ => t

def Item.value : Item → String
  | .mk _ v _ _ _ => v

def Item.typeName : Item → String
  | .mk _ _ ty _ _ => ty

def Item.roles : Item → Roles
  | .mk _ _ _ r _ => r

def Item.children : Item → List Item
  | .mk _ _ _ _ ch => ch

/-- Text of the key cell created by `appendRow` for an `Option`al key
(`QStandardItem(None)` shows empty text). -/
def keyText (key : Option String) : String := key.getD ""

/-- Python `str(key)` for the key passed to `addDummyItem`. -/
def pyStrKey : Option String → String
  | some s => s
  | none => "None"

/-- `';'.join(entity[k] for k in map(str, primary_key_attributes))` — the
`EntityPrimaryKeyRole` payload of `addDummyItem`. -/
def pkJoin : Val → String
  | .ent t storage =>
    String.intercalate ";"
      (t.primary_key_attributes.map fun k => pyStr (storedVal storage k))
  | _ => ""

/-- The `'<not loaded>'` dummy row created by `addDummyItem`. -/
def dummyItem : Item := .mk "<not loaded>" "" "" {} []

/-- `addDummyItem(parent, entity, key)`: store the dummy marker, the access
key, the entity's class name and its `;`-joined primary-key values in the
node's roles, then append the single `'<not loaded>'` child. -/
def addDummyItem (node : Item) (entity : Val) (key : String) : Item :=
  match node with
  | .mk t v ty r ch =>
    .mk t v ty
      { r with
        dummy := some true,
        entityKey := some key,
        entityTypeR := some (className entity),
        entityPK := some (pkJoin entity) }
      (ch ++ [dummyItem])

/-- `isinstance(value, ftrack_api.entity.base.Entity)`. -/
def isEntity : Val → Bool
  | .ent _ _ => true
  | _ => false

theorem sizeOf_snd_lt_of_mem_pySortedKV {p : String × Val}
    {es : List (String × Val)} (h : p ∈ pySortedKV es) :
    sizeOf p.2 < sizeOf es := by
  have h1 : p ∈ es := mem_pySortedKV.mp h
  have h2 := List.sizeOf_lt_sizeOf_of_mem h1
  obtain ⟨k, v⟩ := p
  simp only [Prod.mk.sizeOf_spec] at h2 ⊢
  omega

mutual

/-- `FTrackExplorer.addItem(parent, key, value, entity)`: build the child
row for `value` and return it.  Lists and dicts recurse into their items
(dicts in key-sorted order); an entity row gets a dummy child remembering
the entity itself under key `''`; collection and key-value-collection rows
(real or placeholder) get a dummy child remembering the parent `entity` and
the access `key`; everything else becomes a `str(value)` leaf row. -/
def addItem (key : Option String) (value : Val) (entity : Val) : Item :=
  match value with
  | .pylist xs =>
    .mk (keyText key) "" (className value) {} (addItemIdx 0 xs entity)
  | .pydict es =>
    .mk (keyText key) "" (className value) {}
      ((pySortedKV es).attach.map fun p =>
        addItem (some p.1.1) p.1.2 entity)
  | .ent _ _ =>
    let entityStr := entityReprOfEntity value
    let cells := match key with
      | none => (entityStr, "")
      | some k => (k, entityStr)
    addDummyItem (.mk cells.1 cells.2 (className value) {} []) value ""
  | .coll _ =>
    addDummyItem (.mk (keyText key) "" (className value) {} []) entity
      (pyStrKey key)
  | .collPh =>
    addDummyItem (.mk (keyText key) "" (className value) {} []) entity
      (pyStrKey key)
  | .kvcoll _ =>
    addDummyItem (.mk (keyText key) "" (className value) {} []) entity
      (pyStrKey key)
  | .kvPh =>
    addDummyItem (.mk (keyText key) "" (className value) {} []) entity
      (pyStrKey key)
  | .scalar _ =>
    .mk (keyText key) (pyStr value) (className value) {} []
  | .vnone =>
    .mk (keyText key) (pyStr value) (className value) {} []
termination_by (sizeOf value, 0)
decreasing_by
  · exact Prod.Lex.left _ _
      (by simp only [Val.pylist.sizeOf_spec]; omega)
  · exact Prod.Lex.left _ _
      (lt_of_lt_of_le (sizeOf_snd_lt_of_mem_pySortedKV p.2)
        (by simp only [Val.pydict.sizeOf_spec]; omega))

/-- The `for i, v in enumerate(value)` recursion of `addItem` on a list. -/
def addItemIdx (i : Nat) (xs : List Val) (entity : Val) : List Item :=
  match xs with
  | [] => []
  | v :: rest => addItem (some (toString i)) v entity :: addItemIdx (i + 1) rest entity
termination_by (sizeOf xs, 1)
decreasing_by
  all_goals
    exact Prod.Lex.left _ _
      (by simp only [List.cons.sizeOf_spec]; omega)

end

/-- Truthiness of the `EntityKeyRole` datum in
`not model.data(index, self.EntityKeyRole)`: `None` and `''` are falsy. -/
def optStrFalsy : Option String → Bool
  | none => true
  | some s => s = ""

/-- A deferred `loadEntity` invocation requested by `populateChildren`
(`loadEntity` is `@deferred`, so `populateChildren` only starts it): the
arguments are read from the item's role data. -/
structure LoadRequest where
  entityTypeName : Option String
  primaryKeys : Option (List String)
  key : Option String
  loadedTexts : Option (List String)
deriving DecidableEq, Repr

/-- `FTrackExplorer.populateChildren(index)`: on a visited item, reload the
remaining keys when auto-populate is now on, the item was populated without
it, and the item is not a collection node (`EntityKeyRole` falsy); on an
unvisited item carrying the dummy marker, mark it visited, record the
auto-populate state, remove row 0 (the dummy) and request its children via
`loadEntity`; any other item is left unchanged.  Returns the updated item
and the requested `loadEntity` calls. -/
def populateChildren (ap : Bool) (item : Item) : Item × List LoadRequest :=
  match item with
  | .mk t v ty r ch =>
    if r.visit.isSome then
      if (r.autoPop ≠ some true) ∧ ap ∧ optStrFalsy r.entityKey then
        let req : LoadRequest :=
          { entityTypeName := r.entityTypeR,
            primaryKeys := r.entityPK.map (·.splitOn ";"),
            key := none,
            loadedTexts := some (ch.map Item.text) }
        (.mk t v ty { r with autoPop := some true } ch, [req])
      else (item, [])
    else if r.dummy.isSome then
      let req : LoadRequest :=
        { entityTypeName := r.entityTypeR,
          primaryKeys := r.entityPK.map (·.splitOn ";"),
          key := r.entityKey,
          loadedTexts := none }
      (.mk t v ty { r with visit := some true, autoPop := some ap } ch.tail,
        [req])
    else (item, [])

/-- Python `len(value)` (`total_values = len(value)`); `none` is the
`TypeError` raised on an unsized object such as the placeholders. -/
def pyLen : Val → Option Nat
  | .coll vs => some vs.length
  | .kvcoll es => some es.length
  | .pylist xs => some xs.length
  | .pydict es => some es.length
  | .scalar s => some s.length
  | .ent t _ => some t.attributes.length
  | _ => none

/-- The items of a `KeyValueMappedCollectionProxy` value
(`sorted(value.items())` iterates these). -/
def kvEntriesOf : Val → List (String × Val)
  | .kvcoll es => es
  | .pydict es => es
  | _ => []

/-- Result of `_loadEntity` (and of the per-entity part of `loadEntity`):
the top-level item added (when `parent is None`), the rows added under the
given parent together with their optional insertion position, the new
`EntityCache` state, the server fetches performed, and the exception that
aborted the call, if any. -/
structure SubResult where
  topItem : Option Item := none
  adds : List (Option Nat × Item) := []
  st : CacheState
  fetched : List (String × String) := []
  err : Option PyErr := none

/-- The `row`/`_loaded` bookkeeping of `_loadEntity`'s load-all-keys loop:
find the first position whose element compares greater than `key`, insert
`key` there and report the position; otherwise leave the list unchanged and
report `None` (append). -/
def loadedInsertAux (key : String) (i : Nat) :
    List String → Option Nat × List String
  | [] => (none, [])
  | k :: rest =>
    if strLT key k then (some i, key :: k :: rest)
    else
      let r := loadedInsertAux key (i + 1) rest
      (r.1, k :: r.2)

/-- `row = None; if _loaded: for i, k in enumerate(_loaded): ...`. -/
def loadedInsert (loaded : List String) (key : String) :
    Option Nat × List String :=
  loadedInsertAux key 0 loaded

/-- The `for key in sorted(keys)` loop of `_loadEntity` ("Load a new
entity").  `cacheId` and `attrsOrig` are the `cache` and `attributes` of the
entity `_loadEntity` was called with (they are *not* recomputed when a
reference key replaced `entity`, faithfully to the source). -/
def loadAllKeysLoop (ap : Bool) (sess : Session) (st : CacheState)
    (fetched : List (String × String)) (cacheId : String)
    (attrsOrig : List (String × AttrKind)) (entity : Val)
    (loaded : List String) (adds : List (Option Nat × Item)) :
    List String → SubResult
  | [] => { adds := adds, st := st, fetched := fetched }
  | k :: rest =>
    if k ∈ loaded then
      loadAllKeysLoop ap sess st fetched cacheId attrsOrig entity loaded adds
        rest
    else if EntityCache.containsC st cacheId k then
      let value := (EntityCache.getItemC st cacheId k).getD (.scalar "")
      let rl := loadedInsert loaded k
      loadAllKeysLoop ap sess st fetched cacheId attrsOrig entity rl.2
        (adds ++ [(rl.1, addItem (some k) value entity)]) rest
    else if ap then
      match lookupA attrsOrig k with
      | some .collection =>
        let rl := loadedInsert loaded k
        loadAllKeysLoop ap sess st fetched cacheId attrsOrig entity rl.2
          (adds ++ [(rl.1, addItem (some k) .collPh entity)]) rest
      | some .keyValueMapped =>
        let rl := loadedInsert loaded k
        loadAllKeysLoop ap sess st fetched cacheId attrsOrig entity rl.2
          (adds ++ [(rl.1, addItem (some k) .kvPh entity)]) rest
      | _ =>
        let r := getItem sess entity k
        match r.1 with
        | none =>
          loadAllKeysLoop ap sess st (fetched ++ r.2) cacheId attrsOrig
            entity loaded adds rest
        | some v =>
          let st1 := EntityCache.setItem st cacheId k v
          let rl := loadedInsert loaded k
          loadAllKeysLoop ap sess st1 (fetched ++ r.2) cacheId attrsOrig
            entity rl.2 (adds ++ [(rl.1, addItem (some k) v entity)]) rest
    else
      loadAllKeysLoop ap sess st fetched cacheId attrsOrig entity loaded adds
        rest

/-- The "Load all keys" tail of `_loadEntity`: `keys = set(entity.keys())`,
the hard-coded removal of `'descendants'` for a `Project` entity
(`set.remove` raises `KeyError` when absent), then the sorted loop. -/
def loadAllKeys (ap : Bool) (sess : Session) (st : CacheState)
    (fetched : List (String × String)) (cacheId : String)
    (attrsOrig : List (String × AttrKind)) (entity : Val)
    (loaded : List String) : SubResult :=
  match entity with
  | .ent t _ =>
    let keys0 := (entKeys entity).dedup
    if t.entity_type = "Project" then
      if "descendants" ∈ keys0 then
        loadAllKeysLoop ap sess st fetched cacheId attrsOrig entity loaded []
          (pySorted (keys0.erase "descendants"))
      else { st := st, fetched := fetched, err := some .keyError }
    else
      loadAllKeysLoop ap sess st fetched cacheId attrsOrig entity loaded []
        (pySorted keys0)
  | _ => { st := st, fetched := fetched, err := some .attributeError }

/-- `FTrackExplorer._loadEntity(entity, key=None, parent=None,
_loaded=None)`.  `parentGiven` is `parent is not None`; a top-level call
adds one item and bulk-loads the entity into the cache; a truthy `key`
either replaces `entity` by the reference value and falls through to the
all-keys loop, or adds the children of the (key-value) collection and
returns; otherwise all (remaining) keys are loaded.  A non-entity argument
makes `entityRepr`/`EntityCache` raise `AttributeError`, an uncaught server
failure on `entity[key]` raises `ServerError`. -/
def _loadEntity (ap : Bool) (sess : Session) (st : CacheState) (entity : Val)
    (key : Option String) (parentGiven : Bool)
    (loaded0 : Option (List String)) : SubResult :=
  let _loaded := match loaded0 with
    | none => []
    | some l => pySorted l
  match entity with
  | .ent t _ =>
    let name := entityReprOfEntity entity
    let st1 := EntityCache.register st entity
    if ¬parentGiven then
      -- the top-level item is added to the tree *before* EntityCache.load
      -- runs, so it stays added even when the bulk load raises
      let item := addItem none entity entity
      let r := EntityCache.load sess st1 [] entity
      { topItem := some item, st := r.1, fetched := r.2.1, err := r.2.2 }
    else
      let keyT := key.getD ""
      if keyT ≠ "" then
        match lookupA t.attributes keyT with
        | some .reference =>
          let r := getItem sess entity keyT
          match r.1 with
          | none => { st := st1, fetched := r.2, err := some .serverError }
          | some e2 =>
            loadAllKeys ap sess st1 r.2 name t.attributes e2 _loaded
        | attr =>
          let r := getItem sess entity keyT
          match r.1 with
          | none => { st := st1, fetched := r.2, err := some .serverError }
          | some value =>
            match pyLen value with
            | none => { st := st1, fetched := r.2, err := some .typeError }
            | some _ =>
              if attr = some .collection then
                { adds := (childrenOf value).map
                    (fun v => (none, addItem none v v)),
                  st := st1, fetched := r.2 }
              else if attr = some .keyValueMapped then
                { adds := (pySortedKV (kvEntriesOf value)).map
                    (fun p => (none, addItem (some p.1) p.2 p.2)),
                  st := st1, fetched := r.2 }
              else { st := st1, fetched := r.2 }
      else loadAllKeys ap sess st1 [] name t.attributes entity _loaded
  | _ => { st := st, err := some .attributeError }

/-- Result of `loadEntity`, `executeAll` or `executeFirst`: sessions opened
by the call, whether the session opened by `loadEntity`'s populate branch
was closed, the entities handed to `_loadEntity`, the rows/top-level items
added, the cache state, the fetches, whether the query was reported invalid,
and the exception that escaped, if any. -/
structure LoadEntityResult where
  sessionsOpened : Nat := 0
  sessionClosed : Bool := false
  displayed : List Val := []
  adds : List (Option Nat × Item) := []
  topAdds : List Item := []
  st : CacheState
  fetched : List (String × String) := []
  invalid : Bool := false
  err : Option PyErr := none

/-- The `for entity in entities` loop of `loadEntity`: run `_loadEntity` on
each entity, stopping when an exception escapes.  (The caught
`RuntimeError` of the source is raised by Qt when the GUI was refreshed;
the Qt model is not part of the state here, so it never occurs.) -/
def loadEntityLoop (ap : Bool) (sess : Session) (st : CacheState)
    (key : Option String) (parentGiven : Bool)
    (loaded0 : Option (List String)) : List Val → LoadEntityResult
  | [] => { st := st }
  | e :: rest =>
    let r := _loadEntity ap sess st e key parentGiven loaded0
    match r.err with
    | some er =>
      { st := r.st, adds := r.adds, topAdds := r.topItem.toList,
        fetched := r.fetched, displayed := [e], err := some er }
    | none =>
      let rr := loadEntityLoop ap sess r.st key parentGiven loaded0 rest
      { rr with
        displayed := e :: rr.displayed,
        adds := r.adds ++ rr.adds,
        topAdds := r.topItem.toList ++ rr.topAdds,
        fetched := r.fetched ++ rr.fetched }

/-- The fix-up loop of `loadEntity`
(`for i, entity in enumerate(entities): if not isinstance(entity, Entity):
entities[i] = session.get(entityType, entityID)`). -/
def fixupEntities (sess : Session) (entityType : String)
    (entityID : List String) (entities : List Val) : List Val :=
  entities.map fun v =>
    if isEntity v then v else (sess.get entityType entityID).getD .vnone

/-- `FTrackExplorer.loadEntity(entityType, entityID, key=None, parent=None,
_loaded=None)` (the function wrapped by `@deferred`; `ap` is
`self.autoPopulate()`).  With auto-populate on it opens a session, builds
the entity list from `session.get`/`session.query`, and closes the session
unless an exception escaped first; with auto-populate off it reads
`EntityCache.types()` (which itself opens a session when `Types` is empty),
resolves the repr, and uses the entity registered in `EntityCache.Entities`
— when none is registered the local variable `entities` is never assigned
and the `for entity in entities` loop raises `UnboundLocalError`. -/
def loadEntity (ap : Bool) (sess : Session) (st : CacheState)
    (entityType : String) (entityID : List String) (key : Option String)
    (parentGiven : Bool) (loaded0 : Option (List String)) :
    LoadEntityResult :=
  if ap then
    if entityID ≠ [] then
      match sess.get entityType entityID with
      | none =>
        let r := loadEntityLoop ap sess st key parentGiven loaded0 []
        { r with sessionsOpened := 1, sessionClosed := r.err.isNone }
      | some _ =>
        let entities := fixupEntities sess entityType entityID
          [Val.pylist (entityID.map .scalar)]
        let r := loadEntityLoop ap sess st key parentGiven loaded0 entities
        { r with sessionsOpened := 1, sessionClosed := r.err.isNone }
    else
      match sess.query entityType with
      | .error _ =>
        { st := st, sessionsOpened := 1, sessionClosed := false,
          err := some .keyError }
      | .ok es =>
        let entities := fixupEntities sess entityType entityID es
        let r := loadEntityLoop ap sess st key parentGiven loaded0 entities
        { r with sessionsOpened := 1, sessionClosed := r.err.isNone }
  else
    let tr := EntityCache.types sess false st
    match lookupA tr.1 entityType with
    | none =>
      { st := tr.2.1, sessionsOpened := tr.2.2, err := some .keyError }
    | some t =>
      let name := entityReprOfType t entityID
      match EntityCache.entity tr.2.1 name with
      | some e =>
        let r := loadEntityLoop ap sess tr.2.1 key parentGiven loaded0 [e]
        { r with sessionsOpened := tr.2.2 }
      | none =>
        { st := tr.2.1, sessionsOpened := tr.2.2,
          err := some .unboundLocal }

/-- The `for entity in session.query(query)` loop of `executeAll` (also run
by `executeFirst` on its single result): each result is added as a
top-level entity through `_loadEntity(entity)`. -/
def execLoop (ap : Bool) (sess : Session) (st : CacheState) :
    List Val → LoadEntityResult
  | [] => { st := st }
  | e :: rest =>
    let r := _loadEntity ap sess st e none false none
    match r.err with
    | some er =>
      { st := r.st, topAdds := r.topItem.toList, fetched := r.fetched,
        displayed := [e], err := some er }
    | none =>
      let rr := execLoop ap sess r.st rest
      { rr with
        displayed := e :: rr.displayed,
        topAdds := r.topItem.toList ++ rr.topAdds,
        fetched := r.fetched ++ rr.fetched }

/-- `FTrackExplorer.executeAll` (the function wrapped by `@deferred`): an
empty query returns immediately; otherwise a session is opened and every
query result is added as a top-level entity, in order; the `KeyError` of an
invalid query is caught and reported (`invalid`), adding nothing.
(`checkCredentials` only shows input dialogs and sets environment
variables; it opens no session and is not modelled.) -/
def executeAll (ap : Bool) (sess : Session) (st : CacheState)
    (queryText : String) : LoadEntityResult :=
  if queryText = "" then { st := st }
  else
    match sess.query queryText with
    | .error _ =>
      { st := st, sessionsOpened := 1, sessionClosed := true,
        invalid := true }
    | .ok es =>
      let r := execLoop ap sess st es
      { r with sessionsOpened := 1, sessionClosed := r.err.isNone }

/-- `FTrackExplorer.executeFirst` (the function wrapped by `@deferred`):
like `executeAll` but only the first query result (if any) is added. -/
def executeFirst (ap : Bool) (sess : Session) (st : CacheState)
    (queryText : String) : LoadEntityResult :=
  if queryText = "" then { st := st }
  else
    match sess.query queryText with
    | .error _ =>
      { st := st, sessionsOpened := 1, sessionClosed := true,
        invalid := true }
    | .ok es =>
      match es.head? with
      | none => { st := st, sessionsOpened := 1, sessionClosed := true }
      | some e =>
        let r := execLoop ap sess st [e]
        { r with sessionsOpened := 1, sessionClosed := r.err.isNone }

/-- `FTrackExplorer.clear`: remove every top-level row of the tree and call
`EntityCache.reset()`. -/
def clear (tree : List Item) (st : CacheState) : List Item × CacheState :=
  ([], EntityCache.reset st)

theorem lookupA_insertA_self {α : Type} (l : List (String × α)) (k : String)
    (v : α) : lookupA (insertA l k v) k = some v := by
  induction l with
  | nil => simp [insertA, lookupA]
  | cons p rest ih =>
    obtain ⟨k', v'⟩ := p
    simp only [insertA]
    split
    · simp [lookupA]
    · next hne =>
      simp only [lookupA, hne, if_neg]
      exact ih

theorem lookupA_insertA_ne {α : Type} (l : List (String × α)) {k k' : String}
    (v : α) (h : k ≠ k') : lookupA (insertA l k v) k' = lookupA l k' := by
  induction l with
  | nil => simp [insertA, lookupA, h]
  | cons p rest ih =>
    obtain ⟨k₀, v₀⟩ := p
    simp only [insertA]
    split
    · next heq =>
      subst heq
      simp [lookupA, h]
    · simp only [lookupA]
      split
      · rfl
      · exact ih

/-- Sample entity class used by concrete witnesses. -/
def userType : EntityType :=
  { entity_type := "User",
    primary_key_attributes := ["id"],
    attributes :=
      [("id", .scalar), ("username", .scalar), ("assignments", .collection)] }

/-- Sample `Project` class used by concrete witnesses. -/
def projType : EntityType :=
  { entity_type := "Project",
    primary_key_attributes := ["id"],
    attributes :=
      [("id", .scalar), ("name", .scalar), ("descendants", .collection)] }

/-- A sample `User` entity with a loaded `id`. -/
def userEnt (i : String) : Val :=
  .ent userType [("id", some (.scalar i))]

/-- A session oracle for witnesses: one `User` type, `session.get` finds
`userEnt`, queries return one user, attribute fetches fail. -/
def demoSess : Session :=
  { types := [("User", userType)],
    get := fun t ids =>
      if t = "User" then some (userEnt (ids.headD "")) else none,
    query := fun q => if q = "User" then .ok [userEnt "1"] else .error (),
    fetch := fun _ _ => none }

theorem getItemC_setItem_self (st : CacheState) (id k : String) (v : Val) :
    EntityCache.getItemC (EntityCache.setItem st id k v) id k = some v := by
  simp [EntityCache.getItemC, EntityCache.setItem, EntityCache.cacheIns,
    lookupA_insertA_self]

theorem getItemC_setItem_ne (st : CacheState) {id id' : String} (k k' : String)
    (v : Val) (h : id ≠ id') :
    EntityCache.getItemC (EntityCache.setItem st id k v) id' k' =
      EntityCache.getItemC st id' k' := by
  simp [EntityCache.getItemC, EntityCache.setItem, EntityCache.cacheIns,
    lookupA_insertA_ne _ _ h]

/-- A `User`-like class whose `thumbnail` attribute is a reference,
followed by a scalar `username` in `keys()` order. -/
def thumbType : EntityType :=
  { entity_type := "User",
    primary_key_attributes := ["id"],
    attributes :=
      [("id", .scalar), ("thumbnail", .reference), ("username", .scalar)] }

/-- An entity whose loaded `thumbnail` reference is null: ftrack merges an
empty relation as remote value `None`, which `isKeyLoaded` counts as
loaded (the storage entry is present and distinct from `NOT_SET`).  Its
`username` is loaded too and comes after `thumbnail` in key order. -/
def badU : Val :=
  .ent thumbType
    [("id", some (.scalar "9")), ("thumbnail", some .vnone),
     ("username", some (.scalar "bob"))]

/-- Evaluation of `EntityCache.load` on `badU`: it writes `id` and
`thumbnail`, then the recursion `cls.load(entity[key])` into the loaded
`None` reference raises `AttributeError` (inside `entityRepr`), so
`username` is never written and no fetch is performed. -/
theorem load_badU_eval (sess : Session) (st : CacheState)
    (f : List (String × String)) :
    EntityCache.load sess st f badU =
      (EntityCache.setItem
          (EntityCache.setItem (EntityCache.register st badU)
            (entityReprOfEntity badU) "id" (.scalar "9"))
          (entityReprOfEntity badU) "thumbnail" .vnone,
        f, some .attributeError) := by
  simp [badU, thumbType, EntityCache.load, EntityCache.loadKeys, entKeys,
    isKeyLoaded, lookupA, getItem, attrKindOf]

/-- C3 (counterexample): the claim as stated is false at `badU` — its
`username` key is loaded, yet `EntityCache.load` raises `AttributeError`
while recursing into the loaded null `thumbnail` reference and never
stores `username`. -/
theorem C3_load_counterexample :
    isKeyLoaded badU "username" = true ∧
    (EntityCache.load demoSess {} [] badU).2.2 =
      some .attributeError ∧
    EntityCache.getItemC (EntityCache.load demoSess {} [] badU).1
      (entityReprOfEntity badU) "username" = none := by
  refine ⟨by decide, ?_, ?_⟩
  · rw [load_badU_eval]
  · rw [load_badU_eval]
    rfl

/-- C3 (amended): `EntityCache.load` never causes an unloaded key to be
fetched and leaves the cached `Types` untouched; provided it completes
without raising — the recursion raises `AttributeError` at a loaded
reference value or collection child that is not an entity, e.g. a null
reference — the cache afterwards is the cache before extended by exactly
the writes the claim describes (`specWrites`: every key of the entity
whose remote value is loaded, recursing into loaded reference values and
loaded collection children). -/
theorem C3_load_is_lazy (sess : Session) (st : CacheState)
    (fetched : List (String × String)) (e : Val) :
    (EntityCache.load sess st fetched e).2.1 = fetched ∧
    (EntityCache.load sess st fetched e).1.Types = st.Types ∧
    ((EntityCache.load sess st fetched e).2.2 = none →
      (EntityCache.load sess st fetched e).1.Cache =
        applyWrites st.Cache (specWrites e)) :=
  ⟨(load_spec_eq sess e st fetched).2.1, (load_spec_eq sess e st fetched).1,
    (load_spec_eq sess e st fetched).2.2⟩

/-- Witness for C3 (amended) at an entity whose load completes: the cache
change is exactly the spec-mirror write list. -/
theorem C3_load_is_lazy_witness :
    (EntityCache.load demoSess {} [] (userEnt "1")).1.Cache =
      applyWrites ({} : CacheState).Cache (specWrites (userEnt "1")) :=
  (C3_load_is_lazy demoSess {} [] (userEnt "1")).2.2
    (by simp [userEnt, userType, EntityCache.load, EntityCache.loadKeys,
      entKeys, isKeyLoaded, lookupA, getItem, attrKindOf])

/-- C4: `EntityCache` behaves as a per-entity key-value map keyed by the
entity's repr: a write is read back and reported contained; entities with
different reprs have independent caches; entities with equal reprs share
one store. -/
theorem C4_per_entity_kv (st : CacheState) (e1 e2 : Val) (k k' : String)
    (v : Val) :
    (EntityCache.containsEntity (EntityCache.setEntity st e1 k v) e1 k =
        true ∧
      EntityCache.getEntity (EntityCache.setEntity st e1 k v) e1 k =
        some v) ∧
    (entityReprOfEntity e1 ≠ entityReprOfEntity e2 →
      EntityCache.getEntity (EntityCache.setEntity st e1 k v) e2 k' =
          EntityCache.getEntity st e2 k' ∧
        EntityCache.containsEntity (EntityCache.setEntity st e1 k v) e2 k' =
          EntityCache.containsEntity st e2 k') ∧
    (entityReprOfEntity e1 = entityReprOfEntity e2 →
      EntityCache.getEntity st e1 k' = EntityCache.getEntity st e2 k' ∧
      EntityCache.getEntity (EntityCache.setEntity st e1 k v) e2 k =
        some v) := by
  refine ⟨⟨?_, ?_⟩, fun hne => ⟨?_, ?_⟩, fun heq => ⟨?_, ?_⟩⟩
  · simp [EntityCache.containsEntity, EntityCache.containsC,
      EntityCache.setEntity, getItemC_setItem_self]
  · simp [EntityCache.getEntity, EntityCache.setEntity,
      getItemC_setItem_self]
  · simp only [EntityCache.getEntity, EntityCache.setEntity]
    rw [getItemC_setItem_ne _ _ _ _ hne]
    simp [EntityCache.getItemC, register_Cache]
  · simp only [EntityCache.containsEntity, EntityCache.containsC,
      EntityCache.getEntity, EntityCache.setEntity]
    rw [getItemC_setItem_ne _ _ _ _ hne]
    simp [EntityCache.getItemC, register_Cache]
  · simp [EntityCache.getEntity, heq]
  · simp only [EntityCache.getEntity, EntityCache.setEntity, ← heq]
    simp [getItemC_setItem_self]

/-- Witness for C4 at concrete entities: `User(id='1')` twice (same repr,
one with an extra loaded key) and `User(id='2')` (different repr). -/
theorem C4_per_entity_kv_witness :
    EntityCache.getEntity
        (EntityCache.setEntity {} (userEnt "1") "username" (.scalar "bob"))
        (userEnt "1") "username" = some (.scalar "bob") ∧
      EntityCache.getEntity
        (EntityCache.setEntity {} (userEnt "1") "username" (.scalar "bob"))
        (userEnt "2") "username" =
        EntityCache.getEntity {} (userEnt "2") "username" ∧
      EntityCache.getEntity
        (EntityCache.setEntity {} (userEnt "1") "username" (.scalar "bob"))
        (.ent userType [("id", some (.scalar "1")),
          ("username", some (.scalar "x"))]) "username" =
        some (.scalar "bob") :=
  ⟨(C4_per_entity_kv {} (userEnt "1") (userEnt "2") "username" "username"
      (.scalar "bob")).1.2,
    ((C4_per_entity_kv {} (userEnt "1") (userEnt "2") "username" "username"
      (.scalar "bob")).2.1 (by decide)).1,
    ((C4_per_entity_kv {} (userEnt "1")
      (.ent userType [("id", some (.scalar "1")),
        ("username", some (.scalar "x"))]) "username" "username"
      (.scalar "bob")).2.2 (by decide)).2⟩

/-- C7: `EntityCache.reset` (and the Clear button's `clear`, which calls
it) empties the per-entity value cache but leaves `Entities` and `Types`
unchanged, so `EntityCache.entity` still finds previously registered
entities by name. -/
theorem C7_reset_only_clears_values (st : CacheState) (tr : List Item)
    (name id k : String) (e : Val) :
    (clear tr st).1 = [] ∧
    ((clear tr st).2).Cache = [] ∧
    EntityCache.containsC (clear tr st).2 id k = false ∧
    EntityCache.containsEntity (EntityCache.reset st) e k = false ∧
    (EntityCache.reset st).Entities = st.Entities ∧
    (EntityCache.reset st).Types = st.Types ∧
    EntityCache.entity (clear tr st).2 name = EntityCache.entity st name := by
  refine ⟨rfl, rfl, ?_, ?_, rfl, rfl, rfl⟩
  · simp [EntityCache.containsC, EntityCache.getItemC, clear,
      EntityCache.reset, lookupA]
  · simp [EntityCache.containsEntity, EntityCache.containsC,
      EntityCache.getItemC, EntityCache.reset, lookupA]

/-- A session whose server reports no entity types (`session.types` empty);
used to exhibit the corner `EntityCache.types` re-opens sessions on. -/
def emptySess : Session :=
  { types := [],
    get := fun _ _ => none,
    query := fun _ => .error (),
    fetch := fun _ _ => none }

/-- C9 (counterexample): with an empty server type registry, a second call
to `EntityCache.types` after a first successful call still opens a further
session — the claim's "every subsequent call … without opening any further
session" is false as stated. -/
theorem C9_types_counterexample :
    (EntityCache.types emptySess false
      (EntityCache.types emptySess false {}).2.1).2.2 = 1 := by
  decide

/-- C9 (amended): provided the server reports a nonempty type registry, the
first call from an empty `Types` cache populates it (from the given session
when one is passed, else from one newly opened session) and every
subsequent call returns the same dict and the same state without opening
any session. -/
theorem C9_types_caching (sess sess2 : Session) (given given2 : Bool)
    (st : CacheState) (hne : sess.types ≠ []) (hempty : st.Types = []) :
    (EntityCache.types sess given st).1 = sess.types ∧
    (EntityCache.types sess given st).2.1.Types = sess.types ∧
    (given = true → (EntityCache.types sess given st).2.2 = 0) ∧
    (given = false → (EntityCache.types sess given st).2.2 = 1) ∧
    (EntityCache.types sess2 given2 (EntityCache.types sess given st).2.1).1 =
      (EntityCache.types sess given st).1 ∧
    (EntityCache.types sess2 given2 (EntityCache.types sess given st).2.1).2.1 =
      (EntityCache.types sess given st).2.1 ∧
    (EntityCache.types sess2 given2
      (EntityCache.types sess given st).2.1).2.2 = 0 := by
  cases given <;>
    simp [EntityCache.types, hempty, hne]

/-- Witness for C9 at a concrete session with a nonempty type registry. -/
theorem C9_types_caching_witness :
    (EntityCache.types demoSess false
      (EntityCache.types demoSess false {}).2.1).2.2 = 0 :=
  (C9_types_caching demoSess demoSess false false {} (by decide)
    rfl).2.2.2.2.2.2

/-- The role/structure payload C2 asserts for a lazily expandable node: one
`'<not loaded>'` dummy child, the dummy marker, the access key, the class
name and joined primary keys of the entity whose children will be loaded,
and no visit marker yet. -/
def dummyRolesFor (it : Item) (entity : Val) (key : String) : Prop :=
  it.children = [dummyItem] ∧
  it.roles.dummy = some true ∧
  it.roles.entityKey = some key ∧
  it.roles.entityTypeR = some (className entity) ∧
  it.roles.entityPK = some (pkJoin entity) ∧
  it.roles.visit = none

/-- C2: every node `addItem` creates for a not-yet-loaded entity reference
or for a (key-value) collection carries exactly one `'<not loaded>'` dummy
child and the entity type / primary keys / access key in its roles; on
first expansion `populateChildren` removes row 0, marks the node visited
(recording the auto-populate state) and requests its real children from
the stored role data; a node without the dummy marker is left unchanged. -/
theorem C2_lazy_expansion (key : Option String) (t : EntityType)
    (storage : List (String × Option Val)) (vs : List Val)
    (es : List (String × Val)) (pe : Val) (ap b : Bool) (a : Option Bool)
    (ek et ep : Option String) (tx v ty : String) (ch : List Item) :
    dummyItem.text = "<not loaded>" ∧
    dummyRolesFor (addItem key (.ent t storage) pe) (.ent t storage) "" ∧
    dummyRolesFor (addItem key (.coll vs) pe) pe (pyStrKey key) ∧
    dummyRolesFor (addItem key .collPh pe) pe (pyStrKey key) ∧
    dummyRolesFor (addItem key (.kvcoll es) pe) pe (pyStrKey key) ∧
    dummyRolesFor (addItem key .kvPh pe) pe (pyStrKey key) ∧
    populateChildren ap
        (.mk tx v ty (Roles.mk none (some b) a ek et ep) ch) =
      (.mk tx v ty (Roles.mk (some true) (some b) (some ap) ek et ep)
         ch.tail,
       [{ entityTypeName := et, primaryKeys := ep.map (·.splitOn ";"),
          key := ek, loadedTexts := none }]) ∧
    populateChildren ap (.mk tx v ty (Roles.mk none none a ek et ep) ch) =
      (.mk tx v ty (Roles.mk none none a ek et ep) ch, []) := by
  refine ⟨rfl, ?_, ?_, ?_, ?_, ?_, ?_, ?_⟩
  · cases key <;>
      simp [dummyRolesFor, addItem, addDummyItem, Item.children, Item.roles,
        dummyItem, className]
  · simp [dummyRolesFor, addItem, addDummyItem, Item.children, Item.roles,
      dummyItem]
  · simp [dummyRolesFor, addItem, addDummyItem, Item.children, Item.roles,
      dummyItem]
  · simp [dummyRolesFor, addItem, addDummyItem, Item.children, Item.roles,
      dummyItem]
  · simp [dummyRolesFor, addItem, addDummyItem, Item.children, Item.roles,
      dummyItem]
  · simp [populateChildren]
  · simp [populateChildren]

theorem addItem_text (k : String) (v entity : Val) :
    (addItem (some k) v entity).text = k := by
  cases v <;> try simp [addItem, addDummyItem, Item.text, keyText]

theorem getItem_log_all (sess : Session) (e : Val) (k : String) :
    ((getItem sess e k).2.all fun p => p.2 == k) = true := by
  cases e <;> try simp [getItem]
  rename_i t storage
  intro a b hab
  rcases h : lookupA storage k with _ | ov
  · simp only [h, List.mem_singleton, Prod.mk.injEq] at hab
    exact hab.2
  · cases ov
    · simp only [h, List.mem_singleton, Prod.mk.injEq] at hab
      exact hab.2
    · simp only [h, List.not_mem_nil] at hab

theorem loadAllKeysLoop_excludes (ap : Bool) (sess : Session)
    (target : String) :
    ∀ (ks : List String) (st : CacheState) (f : List (String × String))
      (cid : String) (attrs : List (String × AttrKind)) (e : Val)
      (loaded : List String) (adds : List (Option Nat × Item)),
      target ∉ ks →
      (adds.all fun a => a.2.text != target) = true →
      (f.all fun p => p.2 != target) = true →
      ((loadAllKeysLoop ap sess st f cid attrs e loaded adds ks).adds.all
          fun a => a.2.text != target) = true ∧
      ((loadAllKeysLoop ap sess st f cid attrs e loaded adds
          ks).fetched.all fun p => p.2 != target) = true := by
  intro ks
  induction ks with
  | nil =>
    intro st f cid attrs e loaded adds _ hadds hf
    exact ⟨hadds, hf⟩
  | cons k rest ih =>
    intro st f cid attrs e loaded adds hmem hadds hf
    have hk : k ≠ target := fun hkt => hmem (hkt ▸ List.mem_cons_self k rest)
    have hrest : target ∉ rest := fun hr => hmem (List.mem_cons_of_mem k hr)
    have haddk : ∀ (v : Val) (rl : Option Nat),
        ((adds ++ [(rl, addItem (some k) v e)]).all
          fun a => a.2.text != target) = true := by
      intro v rl
      rw [List.all_append]
      simp [hadds, addItem_text, hk]
    have hfk : ((f ++ (getItem sess e k).2).all
        fun p => p.2 != target) = true := by
      rw [List.all_append]
      have hlog := getItem_log_all sess e k
      have : ((getItem sess e k).2.all fun p => p.2 != target) = true := by
        rw [List.all_eq_true] at hlog ⊢
        intro p hp
        have := hlog p hp
        simp only [beq_iff_eq] at this
        simp [this, hk]
      simp [hf, this]
    simp only [loadAllKeysLoop]
    split
    · exact ih st f cid attrs e loaded adds hrest hadds hf
    · split
      · exact ih st f cid attrs e _ _ hrest (haddk _ _) hf
      · split
        · rcases hA : lookupA attrs k with _ | kind
          · simp only [hA]
            rcases hg : (getItem sess e k).1 with _ | v
            · simp only [hg]
              exact ih st _ cid attrs e loaded adds hrest hadds hfk
            · simp only [hg]
              exact ih _ _ cid attrs e _ _ hrest (haddk _ _) hfk
          · cases kind
            · simp only [hA]
              rcases hg : (getItem sess e k).1 with _ | v
              · simp only [hg]
                exact ih st _ cid attrs e loaded adds hrest hadds hfk
              · simp only [hg]
                exact ih _ _ cid attrs e _ _ hrest (haddk _ _) hfk
            · simp only [hA]
              rcases hg : (getItem sess e k).1 with _ | v
              · simp only [hg]
                exact ih st _ cid attrs e loaded adds hrest hadds hfk
              · simp only [hg]
                exact ih _ _ cid attrs e _ _ hrest (haddk _ _) hfk
            · simp only [hA]
              exact ih st f cid attrs e _ _ hrest (haddk _ _) hf
            · simp only [hA]
              exact ih st f cid attrs e _ _ hrest (haddk _ _) hf
        · exact ih st f cid attrs e loaded adds hrest hadds hf

/-- C8: on `_loadEntity`'s load-all-keys path for an entity whose
`entity_type` is `'Project'`, the sorted key list the loop iterates over
excludes `'descendants'`, so no row with that key is created and no fetch
of it is performed (when `'descendants'` is missing from the key set,
`set.remove` raises `KeyError` and nothing at all is iterated). -/
theorem C8_project_descendants_excluded (ap : Bool) (sess : Session)
    (st : CacheState) (cid : String) (attrs : List (String × AttrKind))
    (pks : List String) (tattrs : List (String × AttrKind))
    (storage : List (String × Option Val)) (loaded : List String) :
    "descendants" ∉ pySorted
        (((entKeys (Val.ent ⟨"Project", pks, tattrs⟩ storage)).dedup).erase
          "descendants") ∧
    ((loadAllKeys ap sess st [] cid attrs
        (.ent ⟨"Project", pks, tattrs⟩ storage) loaded).adds.all
      fun a => a.2.text != "descendants") = true ∧
    ((loadAllKeys ap sess st [] cid attrs
        (.ent ⟨"Project", pks, tattrs⟩ storage) loaded).fetched.all
      fun p => p.2 != "descendants") = true := by
  have hnotmem : "descendants" ∉ pySorted
      (((entKeys (Val.ent ⟨"Project", pks, tattrs⟩ storage)).dedup).erase
        "descendants") := by
    rw [mem_pySorted]
    exact (List.nodup_dedup _).not_mem_erase
  refine ⟨hnotmem, ?_⟩
  simp only [loadAllKeys]
  split
  · split
    · exact loadAllKeysLoop_excludes ap sess "descendants" _ st [] cid attrs
        _ loaded [] hnotmem rfl rfl
    · exact ⟨rfl, rfl⟩
  · next hne => exact absurd trivial hne

/-- Witness for C8 at a concrete `Project` entity. -/
theorem C8_project_descendants_excluded_witness :
    ((loadAllKeys true demoSess {} [] "x"
        [("id", AttrKind.scalar)]
        (.ent ⟨"Project", ["id"],
          [("id", AttrKind.scalar), ("name", AttrKind.scalar),
           ("descendants", AttrKind.collection)]⟩
          [("id", some (.scalar "1"))]) []).adds.all
      fun a => a.2.text != "descendants") = true :=
  (C8_project_descendants_excluded true demoSess {} "x"
    [("id", AttrKind.scalar)] ["id"]
    [("id", AttrKind.scalar), ("name", AttrKind.scalar),
     ("descendants", AttrKind.collection)]
    [("id", some (.scalar "1"))] []).2.1

theorem isEntity_ent {e : Val} (h : isEntity e = true) :
    ∃ t storage, e = .ent t storage := by
  cases e <;> simp [isEntity] at h ⊢

theorem execLoop_success (ap : Bool) (sess : Session) :
    ∀ (es : List Val) (st : CacheState),
      (execLoop ap sess st es).err = none →
      (execLoop ap sess st es).topAdds =
          es.map (fun e => addItem none e e) ∧
        (execLoop ap sess st es).displayed = es ∧
        (execLoop ap sess st es).invalid = false := by
  intro es
  induction es with
  | nil => intro st _; exact ⟨rfl, rfl, rfl⟩
  | cons e rest ih =>
    intro st hsucc
    rcases her : (_loadEntity ap sess st e none false none).err with _ | er
    · obtain ⟨t, storage, rfl⟩ : ∃ t' storage', e = .ent t' storage' := by
        cases e
        case ent t storage => exact ⟨t, storage, rfl⟩
        all_goals simp [_loadEntity] at her
      simp [_loadEntity] at her
      simp [execLoop, _loadEntity, her] at hsucc
      have ih' := ih
        ((EntityCache.load sess
          (EntityCache.register st (Val.ent t storage)) []
          (Val.ent t storage)).1) hsucc
      refine ⟨?_, ?_, ?_⟩ <;>
        simp [execLoop, _loadEntity, her, ih'.1, ih'.2.1, ih'.2.2]
    · simp [execLoop, her] at hsucc

/-- A session whose `'User'` query returns two entities, the first of
which carries a loaded null `thumbnail` reference. -/
def badSess : Session :=
  { types := [("User", thumbType)],
    get := fun _ _ => none,
    query := fun q => if q = "User" then .ok [badU, userEnt "1"] else .error (),
    fetch := fun _ _ => none }

/-- C5 (counterexample): the claim as stated is false at a two-result
query whose first entity has a loaded null reference — the first entity's
top-level item is added, then `EntityCache.load` raises `AttributeError`,
which is not a `KeyError` and so escapes the handler; the second result is
never added (one top-level item instead of two). -/
theorem C5_query_execution_counterexample :
    badSess.query "User" = .ok [badU, userEnt "1"] ∧
    (executeAll true badSess {} "User").topAdds.length = 1 ∧
    (executeAll true badSess {} "User").err = some .attributeError := by
  have hb := load_badU_eval badSess
    (EntityCache.register ({} : CacheState) badU) []
  simp only [badU, thumbType] at hb
  have hq : badSess.query "User" = Except.ok [badU, userEnt "1"] := rfl
  refine ⟨rfl, ?_, ?_⟩ <;>
    simp [executeAll, execLoop, _loadEntity, hq, badU, thumbType, hb]

/-- C5 (amended): an empty query text makes `executeAll`/`executeFirst`
return at once with no session opened and no tree change; a query raising
`KeyError` is reported invalid and adds nothing; otherwise, provided no
exception escapes the result loop (an entity whose bulk cache load raises
stops it after that entity's item), `executeAll` adds one top-level entity
per query result in result order and `executeFirst` adds at most one — the
first result, nothing when there is none. -/
theorem C5_query_execution (ap : Bool) (sess : Session) (st : CacheState)
    (q : String) (es : List Val) :
    (executeAll ap sess st "" = { st := st } ∧
      executeFirst ap sess st "" = { st := st }) ∧
    (q ≠ "" → sess.query q = .error () →
      executeAll ap sess st q =
        { st := st, sessionsOpened := 1, sessionClosed := true,
          invalid := true } ∧
      executeFirst ap sess st q =
        { st := st, sessionsOpened := 1, sessionClosed := true,
          invalid := true }) ∧
    (q ≠ "" → sess.query q = .ok es →
      ((executeAll ap sess st q).err = none →
        (executeAll ap sess st q).topAdds =
          es.map (fun e => addItem none e e) ∧
        (executeAll ap sess st q).displayed = es ∧
        (executeAll ap sess st q).sessionsOpened = 1 ∧
        (executeAll ap sess st q).invalid = false) ∧
      ((executeFirst ap sess st q).err = none →
        (executeFirst ap sess st q).topAdds =
          (es.take 1).map (fun e => addItem none e e) ∧
        (executeFirst ap sess st q).displayed = es.take 1 ∧
        (executeFirst ap sess st q).sessionsOpened = 1 ∧
        (executeFirst ap sess st q).invalid = false)) := by
  refine ⟨⟨by simp [executeAll], by simp [executeFirst]⟩, ?_, ?_⟩
  · intro hq herr
    constructor
    · simp [executeAll, hq, herr]
    · simp [executeFirst, hq, herr]
  · intro hq hok
    constructor
    · intro hsucc
      simp [executeAll, hq, hok] at hsucc
      have hloop := execLoop_success ap sess es st hsucc
      refine ⟨?_, ?_, ?_, ?_⟩ <;>
        simp [executeAll, hq, hok, hloop.1, hloop.2.1, hloop.2.2]
    · intro hsucc
      match es with
      | [] =>
        simp [executeFirst, hq, hok]
      | e :: rest =>
        simp [executeFirst, hq, hok] at hsucc
        have hone := execLoop_success ap sess [e] st hsucc
        refine ⟨?_, ?_, ?_, ?_⟩ <;>
          simp [executeFirst, hq, hok, hone.1, hone.2.1, hone.2.2]

/-- Witness for C5 at the sample session (`'User'` query returning one
user whose load completes; `'bad'` raising `KeyError`). -/
theorem C5_query_execution_witness :
    (executeAll true demoSess {} "bad").invalid = true ∧
    (executeAll true demoSess {} "User").topAdds =
      [addItem none (userEnt "1") (userEnt "1")] ∧
    (executeFirst true demoSess {} "User").displayed = [userEnt "1"] := by
  have hq : demoSess.query "User" = Except.ok [userEnt "1"] := rfl
  have hAerr : (executeAll true demoSess ({} : CacheState) "User").err =
      none := by
    simp [executeAll, execLoop, _loadEntity, hq, userEnt, userType,
      EntityCache.load, EntityCache.loadKeys, entKeys, isKeyLoaded, lookupA,
      getItem, attrKindOf]
  have hFerr : (executeFirst true demoSess ({} : CacheState) "User").err =
      none := by
    simp [executeFirst, execLoop, _loadEntity, hq, userEnt, userType,
      EntityCache.load, EntityCache.loadKeys, entKeys, isKeyLoaded, lookupA,
      getItem, attrKindOf]
  refine ⟨?_, ?_, ?_⟩
  · exact congrArg LoadEntityResult.invalid
      (((C5_query_execution true demoSess {} "bad" []).2.1 (by decide)
        rfl).1)
  · have h := (((C5_query_execution true demoSess {} "User"
      [userEnt "1"]).2.2 (by decide) hq).1 hAerr).1
    simpa using h
  · have h := (((C5_query_execution true demoSess {} "User"
      [userEnt "1"]).2.2 (by decide) hq).2 hFerr).2.1
    simpa using h

theorem loadEntityLoop_displayed (ap : Bool) (sess : Session)
    (key : Option String) (pg : Bool) (l0 : Option (List String)) :
    ∀ (es : List Val) (st : CacheState) (v : Val),
      v ∈ (loadEntityLoop ap sess st key pg l0 es).displayed → v ∈ es := by
  intro es
  induction es with
  | nil =>
    intro st v h
    simp [loadEntityLoop] at h
  | cons e rest ih =>
    intro st v h
    simp only [loadEntityLoop] at h
    rcases herr : (_loadEntity ap sess st e key pg l0).err with _ | er
    · rw [herr] at h
      simp only [List.mem_cons] at h
      rcases h with h | h
      · exact h ▸ List.mem_cons_self e rest
      · exact List.mem_cons_of_mem e (ih _ v h)
    · rw [herr] at h
      simp only [List.mem_singleton] at h
      exact h ▸ List.mem_cons_self e rest

/-- C1 (amended): with auto-populate disabled *and the type registry
already cached*, `loadEntity` opens no session and every displayed entity
comes from `EntityCache.Entities`, looked up by the repr built from the
cached entity type and the given primary keys; with auto-populate enabled
it opens exactly one session, fetches the displayed entities through
`session.get` (or `session.query` when no entity ID is given) and, provided
no exception escapes, closes the session before returning. -/
theorem C1_loadEntity_data_origin (ap : Bool) (sess : Session)
    (st : CacheState) (etype : String) (eid : List String)
    (key : Option String) (pg : Bool) (l0 : Option (List String)) :
    (ap = false → st.Types ≠ [] →
      (loadEntity ap sess st etype eid key pg l0).sessionsOpened = 0 ∧
      ∀ v ∈ (loadEntity ap sess st etype eid key pg l0).displayed,
        ∃ t, lookupA st.Types etype = some t ∧
          EntityCache.entity st (entityReprOfType t eid) = some v) ∧
    (ap = true →
      (loadEntity ap sess st etype eid key pg l0).sessionsOpened = 1 ∧
      ((loadEntity ap sess st etype eid key pg l0).err = none →
        (loadEntity ap sess st etype eid key pg l0).sessionClosed = true) ∧
      (eid ≠ [] →
        ∀ v ∈ (loadEntity ap sess st etype eid key pg l0).displayed,
          sess.get etype eid = some v) ∧
      (eid = [] →
        ∀ v ∈ (loadEntity ap sess st etype eid key pg l0).displayed,
          ∃ es, sess.query etype = .ok es ∧
            v ∈ fixupEntities sess etype eid es)) := by
  constructor
  · rintro rfl hT
    simp only [loadEntity, Bool.false_eq_true, if_false,
      EntityCache.types, if_neg hT]
    rcases hl : lookupA st.Types etype with _ | t
    · simp [hl]
    · simp only [hl]
      rcases hent : EntityCache.entity st (entityReprOfType t eid)
        with _ | e
      · simp [hent]
      · simp only [hent]
        refine ⟨trivial, ?_⟩
        intro v hv
        have hm := loadEntityLoop_displayed false sess key pg l0 [e] st v hv
        simp only [List.mem_singleton] at hm
        subst hm
        exact ⟨t, rfl, hent⟩
  · rintro rfl
    refine ⟨?_, ?_, ?_, ?_⟩
    · by_cases heid : eid = []
      · subst heid
        rcases hq : sess.query etype with u | es <;> simp [loadEntity, hq]
      · rcases hg : sess.get etype eid with _ | e0 <;>
          simp [loadEntity, heid, hg]
    · by_cases heid : eid = []
      · subst heid
        rcases hq : sess.query etype with u | es <;>
          simp [loadEntity, hq]
      · rcases hg : sess.get etype eid with _ | e0 <;>
          simp [loadEntity, heid, hg]
    · intro heid v hv
      rcases hg : sess.get etype eid with _ | e0
      · simp [loadEntity, heid, hg] at hv
        have hm := loadEntityLoop_displayed true sess key pg l0 [] st v hv
        simp at hm
      · simp [loadEntity, heid, hg] at hv
        have hm := loadEntityLoop_displayed true sess key pg l0 _ st v hv
        simp [fixupEntities, isEntity, hg] at hm
        subst hm
        rfl
    · rintro rfl v hv
      rcases hq : sess.query etype with u | es
      · simp [loadEntity, hq] at hv
      · simp [loadEntity, hq] at hv
        exact ⟨es, rfl,
          loadEntityLoop_displayed true sess key pg l0 _ st v hv⟩

/-- C1 (counterexample): as stated, the claim is false on the code in two
respects, at concrete inputs.  First, with auto-populate disabled but
`EntityCache.Types` still empty, `loadEntity` *does* open a session (inside
`EntityCache.types()`).  Second, with auto-populate enabled, a `ServerError`
escaping `_loadEntity` (here: fetching the `assignments` collection fails)
propagates past `session.close()`, so the session is not closed before the
call returns. -/
theorem C1_loadEntity_counterexample :
    (loadEntity false demoSess
        { Cache := [],
          Entities := [(entityReprOfEntity (userEnt "1"), userEnt "1")],
          Types := [] }
        "User" ["1"] none true none).sessionsOpened = 1 ∧
    (loadEntity true demoSess {} "User" ["1"] (some "assignments") true
        none).sessionClosed = false ∧
    (loadEntity true demoSess {} "User" ["1"] (some "assignments") true
        none).err = some .serverError := by
  refine ⟨?_, ?_, ?_⟩ <;> decide

/-- Witness for C1 (amended) with a populated type registry: no session is
opened on the cached path. -/
theorem C1_loadEntity_data_origin_witness :
    (loadEntity false demoSess
        { Cache := [],
          Entities := [(entityReprOfEntity (userEnt "1"), userEnt "1")],
          Types := [("User", userType)] }
        "User" ["1"] none true none).sessionsOpened = 0 :=
  ((C1_loadEntity_data_origin false demoSess
      { Cache := [],
        Entities := [(entityReprOfEntity (userEnt "1"), userEnt "1")],
        Types := [("User", userType)] }
      "User" ["1"] none true none).1 rfl (by decide)).1

/-- C6: `loadEntity` is *not* total on its no-session path — when
auto-populate is disabled and the requested repr is not registered in
`EntityCache.Entities`, the local variable `entities` is never assigned and
the `for entity in entities` loop raises `UnboundLocalError`.  This theorem
evaluates the embedded code at the failing input (empty `Entities`, cached
`Types`). -/
theorem C6_loadEntity_unbound_local :
    (loadEntity false demoSess
        { Cache := [], Entities := [], Types := [("User", userType)] }
        "User" ["1"] none true none).err = some .unboundLocal := by
  decide
